import Mathlib

/-!
Shallow embedding of the ORE live-summary route
(`src/frontend/app/api/ore/live/route.ts`).  The file contains three
variants of the handler; we embed the pure decoding, winning-square,
timing and aggregation logic of each variant as Lean functions over
byte lists (`List Nat`, each entry one byte) and exact rationals
(JS float arithmetic on the small integer values involved is exact,
so `ℚ` is a faithful model here).
-/

namespace OreLive

/-- Little-endian unsigned 64-bit read, as in `readU64` in the route:
`value += BigInt(data[offset + i]) << BigInt(i * 8)` for `i = 0..7`.
Out-of-range bytes are read as `0` (callers establish in-range offsets). -/
def readU64 (data : List Nat) (offset : Nat) : Nat :=
  (List.range 8).foldl (fun acc i => acc + data.getD (offset + i) 0 * 2 ^ (i * 8)) 0

/-- `calculateWinningSquare` from the third variant of the route: `null`
when the 32-byte slot hash is all zeros or all 255s, otherwise
`(r1 XOR r2 XOR r3 XOR r4) mod 25 + 1` over the four little-endian
u64 words at offsets 0, 8, 16, 24. -/
def calculateWinningSquare (slotHash : List Nat) : Option Nat :=
  let allZeros := slotHash.all (fun b => b == 0)
  let allMax := slotHash.all (fun b => b == 255)
  if allZeros || allMax then none
  else
    let r1 := readU64 slotHash 0
    let r2 := readU64 slotHash 8
    let r3 := readU64 slotHash 16
    let r4 := readU64 slotHash 24
    let rng := r1 ^^^ r2 ^^^ r3 ^^^ r4
    some (rng % 25 + 1)

/-- JS `Math.round`: round half away from zero toward +∞, i.e.
`Math.round(x) = ⌊x + 1/2⌋`. -/
def jsRound (q : ℚ) : Int := ⌊q + 1/2⌋

/-- Timing output of the first variant of the handler. -/
structure RoundTiming where
  slotsRemaining : Int
  timeRemainingSecs : Int
  isIntermission : Bool
  deriving DecidableEq, Repr

/-- Timing block of the first variant (route lines 141–145):
`slotsRemaining = Math.max(0, endSlot - currentSlot)`,
`isIntermission = currentSlot >= endSlot`,
`timeRemainingSecs = Math.floor(slotsRemaining * 0.37)`.
`startSlot` is read from the Board but not used in the computation. -/
def computeTimingV1 (startSlot endSlot currentSlot : Int) : RoundTiming :=
  let _ := startSlot
  let slotsRemaining := max 0 (endSlot - currentSlot)
  { slotsRemaining := slotsRemaining
    timeRemainingSecs := ⌊(slotsRemaining : ℚ) * 0.37⌋
    isIntermission := decide (endSlot ≤ currentSlot) }

/-- `slotsRemaining` of the third variant (and second):
`Math.max(0, endSlot - currentSlot)`. -/
def slotsRemainingV3 (endSlot currentSlot : Int) : Int :=
  max 0 (endSlot - currentSlot)

/-- `timeRemainingSecs = slotsRemaining / 2.5` of the third (and second)
variant, before JSON serialization. -/
def timeRemainingSecsV3 (endSlot currentSlot : Int) : ℚ :=
  (slotsRemainingV3 endSlot currentSlot : ℚ) / 2.5

/-- The `time_remaining_secs` field the third (and second) variant
serializes: `Math.round(timeRemainingSecs)`. -/
def timeRemainingSecsV3Json (endSlot currentSlot : Int) : Int :=
  jsRound (timeRemainingSecsV3 endSlot currentSlot)

/-- Deployed-array decoder of the second variant: 25 little-endian u64
words read from the raw round account buffer at offsets `8 + i * 8`. -/
def deployedV2 (data : List Nat) : List Nat :=
  (List.range 25).map (fun i => readU64 data (8 + i * 8))

/-- Deployed-array decoder of the third variant: 25 little-endian u64
words read from the raw round account buffer at offsets `16 + i * 8`. -/
def deployedV3 (data : List Nat) : List Nat :=
  (List.range 25).map (fun i => readU64 data (16 + i * 8))

/-- The XOR of the four little-endian u64 words of the 32-byte slot hash,
as computed both by `calculateWinningSquare` and by the inline winner
check of the first variant (which reads the same four words through a
`DataView`). -/
def slotHashRng (slotHash : List Nat) : Nat :=
  readU64 slotHash 0 ^^^ readU64 slotHash 8 ^^^ readU64 slotHash 16 ^^^ readU64 slotHash 24

/-- One element of the `squares` array built by the first variant
(route lines 151–164).  The JS object also carries `deployed_sol`
(`deployed_lamports / 1e9`), a determined field we omit. -/
structure SquareSummary where
  squareNum : Nat
  index : Nat
  deployedLamports : Nat
  minerCount : Nat
  isWinning : Bool
  percentageOfTotal : ℚ
  deriving DecidableEq, Repr, Inhabited

/-- The `squares` array of the first variant before winner marking:
`round.deployed.map((deployed, i) => { square_num: i + 1, ...,
is_winning: false, percentage_of_total: totalDeployed > 0 ?
(deployedNum / totalDeployed) * 100 : 4.0 })`. -/
def mkSquares (deployed count : List Nat) (totalDeployed : Nat) : List SquareSummary :=
  deployed.mapIdx (fun i d =>
    { squareNum := i + 1
      index := i
      deployedLamports := d
      minerCount := count.getD i 0
      isWinning := false
      percentageOfTotal :=
        if 0 < totalDeployed then (d : ℚ) / (totalDeployed : ℚ) * 100 else 4 })

/-- The winner-marking block of the first variant (route lines 166–177):
if the slot hash is not all-zero and the round is in intermission, set
`is_winning = true` on `squares[Number(rng % 25n)]`. -/
def markWinningSquare (squares : List SquareSummary) (slotHash : List Nat)
    (isIntermission : Bool) : List SquareSummary :=
  let slotHashEmpty := slotHash.all (fun b => b == 0)
  if !slotHashEmpty && isIntermission then
    let winningSquare := slotHashRng slotHash % 25
    if winningSquare < 25 then
      squares.mapIdx (fun j s =>
        if j = winningSquare then { s with isWinning := true } else s)
    else squares
  else squares

/-- The winner index (0-based) the first variant's inline check supplies
to the marking step: `Some (rng % 25)` when the slot hash is not all-zero
and the round is in intermission, `None` otherwise. -/
def inlineWinnerIdx (slotHash : List Nat) (isIntermission : Bool) : Option Nat :=
  if !(slotHash.all (fun b => b == 0)) && isIntermission then
    some (slotHashRng slotHash % 25)
  else none

/-- The full `squares` pipeline of the first variant: build the
summaries, then mark the winning square. -/
def liveSquares (deployed count : List Nat) (totalDeployed : Nat)
    (slotHash : List Nat) (isIntermission : Bool) : List SquareSummary :=
  markWinningSquare (mkSquares deployed count totalDeployed) slotHash isIntermission

/-- Decode failures of the byte-level readers.  The route itself has no
typed decode errors: a read past the end of a Node `Buffer` throws an
untyped `RangeError`, modelled as `rangeRead offset`; constructing a
`PublicKey` from a slice that is not 32 bytes throws, modelled as
`invalidKey`.  `tooShort` is the typed error the spec prescribes for
up-front length validation; no code path produces it. -/
inductive DecodeError where
  | tooShort : DecodeError
  | rangeRead : Nat → DecodeError
  | invalidKey : DecodeError
  deriving DecidableEq, Repr

/-- Node `Buffer.readBigUInt64LE`: returns the little-endian u64 at
`offset` when `offset + 8 <= length`, otherwise throws a `RangeError`. -/
def readBigUInt64LE (data : List Nat) (offset : Nat) : Except DecodeError Nat :=
  if offset + 8 ≤ data.length then .ok (readU64 data offset)
  else .error (.rangeRead offset)

/-- Node `Buffer.slice(a, b)`: clamps to the buffer bounds, never
throws. -/
def bufSlice (data : List Nat) (a b : Nat) : List Nat :=
  (data.take b).drop a

/-- `new PublicKey(bytes)`: accepts exactly 32 bytes, throws
otherwise. -/
def publicKeyFromBytes (bytes : List Nat) : Except DecodeError (List Nat) :=
  if bytes.length = 32 then .ok bytes else .error .invalidKey

/-- The `Board` record of the first variant's `parseBoard`. -/
structure Board where
  round_id : Nat
  start_slot : Nat
  end_slot : Nat
  epoch_id : Nat
  deriving DecidableEq, Repr

/-- `parseBoard` of the first variant: four little-endian u64 reads at
offsets 0, 8, 16, 24 of the payload (discriminator already sliced off by
the caller). -/
def parseBoard (data : List Nat) : Except DecodeError Board := do
  let round_id ← readBigUInt64LE data 0
  let start_slot ← readBigUInt64LE data 8
  let end_slot ← readBigUInt64LE data 16
  let epoch_id ← readBigUInt64LE data 24
  return { round_id := round_id, start_slot := start_slot,
           end_slot := end_slot, epoch_id := epoch_id }

/-- The `Round` record of the first variant's `parseRound`. -/
structure Round where
  id : Nat
  deployed : List Nat
  slotHash : List Nat
  count : List Nat
  motherlode : Nat
  topMiner : List Nat
  topMinerReward : Nat
  totalDeployed : Nat
  totalMiners : Nat
  totalVaulted : Nat
  deriving DecidableEq, Repr

/-- `parseRound` of the first variant (route lines 46–110), on the
payload after the 8-byte discriminator: `id` at 0, `deployed[25]` at
`8 + i*8`, `slot_hash = slice(208, 240)`, `count[25]` at `240 + i*8`,
`motherlode` at 448, `top_miner = new PublicKey(slice(488, 520))`,
`top_miner_reward` at 520, `total_deployed` at 528, `total_miners` at
536, `total_vaulted` at 544.  Reads are performed in source order; the
first out-of-range read aborts the decode. -/
def parseRound (data : List Nat) : Except DecodeError Round := do
  let id ← readBigUInt64LE data 0
  let deployed ← (List.range 25).mapM (fun i => readBigUInt64LE data (8 + i * 8))
  let slotHash := bufSlice data 208 240
  let count ← (List.range 25).mapM (fun i => readBigUInt64LE data (240 + i * 8))
  let motherlode ← readBigUInt64LE data 448
  let topMiner ← publicKeyFromBytes (bufSlice data 488 520)
  let topMinerReward ← readBigUInt64LE data 520
  let totalDeployed ← readBigUInt64LE data 528
  let totalMiners ← readBigUInt64LE data 536
  let totalVaulted ← readBigUInt64LE data 544
  return { id := id, deployed := deployed, slotHash := slotHash,
           count := count, motherlode := motherlode, topMiner := topMiner,
           topMinerReward := topMinerReward, totalDeployed := totalDeployed,
           totalMiners := totalMiners, totalVaulted := totalVaulted }

end OreLive

open OreLive

/-- C1: for every 32-byte randomness input that is neither all-zero nor
all-0xFF, `calculateWinningSquare` returns
`((r0 XOR r1 XOR r2 XOR r3) mod 25) + 1` over the little-endian u64 words
at offsets 0, 8, 16, 24; the result is in `[1, 25]`; and the
little-endian bytes of `(r0 = 5, r1 = r2 = r3 = 0)` resolve to square 6. -/
theorem c1_resolver_formula (slotHash : List Nat)
    (hz : slotHash.all (fun b => b == 0) = false)
    (hm : slotHash.all (fun b => b == 255) = false) :
    calculateWinningSquare slotHash =
      some ((readU64 slotHash 0 ^^^ readU64 slotHash 8 ^^^
             readU64 slotHash 16 ^^^ readU64 slotHash 24) % 25 + 1) ∧
    (∀ w, calculateWinningSquare slotHash = some w → 1 ≤ w ∧ w ≤ 25) ∧
    calculateWinningSquare (5 :: List.replicate 31 0) = some 6 := by
  refine ⟨?_, ?_, by decide⟩
  · simp [calculateWinningSquare, hz, hm]
  · intro w hw
    simp [calculateWinningSquare, hz, hm] at hw
    omega

/-- Witness for C1 at the concrete spec vector `(r0 = 5, 0, 0, 0)`. -/
theorem c1_resolver_formula_witness :
    calculateWinningSquare (5 :: List.replicate 31 0) =
      some ((readU64 (5 :: List.replicate 31 0) 0 ^^^
             readU64 (5 :: List.replicate 31 0) 8 ^^^
             readU64 (5 :: List.replicate 31 0) 16 ^^^
             readU64 (5 :: List.replicate 31 0) 24) % 25 + 1) :=
  (c1_resolver_formula (5 :: List.replicate 31 0) (by decide) (by decide)).1

/-- C9: for fixed `endSlot`, `slotsRemaining = max(0, endSlot - currentSlot)`
is non-increasing in `currentSlot`, and equals `0` once
`currentSlot >= endSlot`. -/
theorem c9_units_remaining_monotone (startSlot endSlot c1 c2 : Int)
    (h : c1 ≤ c2) :
    (computeTimingV1 startSlot endSlot c2).slotsRemaining ≤
      (computeTimingV1 startSlot endSlot c1).slotsRemaining ∧
    (∀ c : Int, endSlot ≤ c →
      (computeTimingV1 startSlot endSlot c).slotsRemaining = 0) := by
  constructor
  · simp only [computeTimingV1]
    omega
  · intro c hc
    simp only [computeTimingV1]
    omega

/-- Witness for C9 at `startSlot = 0`, `endSlot = 5`, `c1 = 3`, `c2 = 7`. -/
theorem c9_units_remaining_monotone_witness :
    (computeTimingV1 0 5 7).slotsRemaining ≤
      (computeTimingV1 0 5 3).slotsRemaining ∧
    (∀ c : Int, (5 : Int) ≤ c →
      (computeTimingV1 0 5 c).slotsRemaining = 0) :=
  c9_units_remaining_monotone 0 5 3 7 (by decide)

/-- C7 counterexample: with `startSlot = 100 > endSlot = 50` and
`currentSlot = 60`, the first variant's timing block raises no
`InvalidSlotRange` error — it returns a silently clamped `RoundTiming`
value. -/
theorem c7_invalid_range_counterexample :
    (50 : Int) < 100 ∧
    computeTimingV1 100 50 60 =
      { slotsRemaining := 0, timeRemainingSecs := 0, isIntermission := true } := by
  constructor
  · decide
  · simp only [computeTimingV1]
    norm_num

/-- C7 amended: the timing block never fails; when `endSlot < startSlot`
and `currentSlot` has reached `startSlot`, it silently clamps to
`slotsRemaining = 0`, `timeRemainingSecs = 0`, `isIntermission = true`. -/
theorem c7_silent_clamp (startSlot endSlot currentSlot : Int)
    (h1 : endSlot < startSlot) (h2 : startSlot ≤ currentSlot) :
    computeTimingV1 startSlot endSlot currentSlot =
      { slotsRemaining := 0, timeRemainingSecs := 0, isIntermission := true } := by
  have hmax : max (0 : Int) (endSlot - currentSlot) = 0 := by omega
  simp only [computeTimingV1, hmax]
  refine congrArg₂ (fun (a : Int) (b : Bool) =>
    RoundTiming.mk 0 a b) ?_ (by simp; omega)
  norm_num

/-- Witness for C7 amended at `startSlot = 100`, `endSlot = 50`,
`currentSlot = 120`. -/
theorem c7_silent_clamp_witness :
    computeTimingV1 100 50 120 =
      { slotsRemaining := 0, timeRemainingSecs := 0, isIntermission := true } :=
  c7_silent_clamp 100 50 120 (by decide) (by decide)

/-- C4 counterexample: at the spec scenario
`start = 1000, end = 1150, current = 1100` the first variant's timing
block yields `seconds_remaining = floor(50 * 0.37) = 18`, not the claimed
`round(50 * 0.4) = 20`. -/
theorem c4_variant1_scenario_counterexample :
    (computeTimingV1 1000 1150 1100).timeRemainingSecs = 18 ∧
    (18 : Int) ≠ 20 := by
  constructor
  · simp only [computeTimingV1]
    norm_num
  · decide

/-- C4 amended: both variants compute
`units_remaining = max(0, end - current)`; the third variant serializes
`seconds_remaining = round(units_remaining / 2.5) = round(units_remaining * 0.4)`
and yields 20 at the scenario, while the first variant computes
`floor(units_remaining * 0.37)` and yields 18 with `is_intermission = false`
at the scenario. -/
theorem c4_timing_variants :
    (∀ e c : Int, (computeTimingV1 0 e c).slotsRemaining = max 0 (e - c) ∧
      slotsRemainingV3 e c = max 0 (e - c)) ∧
    (∀ e c : Int,
      timeRemainingSecsV3Json e c = jsRound ((max 0 (e - c) : ℚ) * (2 / 5))) ∧
    (∀ e c : Int, (computeTimingV1 0 e c).isIntermission = decide (c ≥ e)) ∧
    slotsRemainingV3 1150 1100 = 50 ∧
    timeRemainingSecsV3Json 1150 1100 = 20 ∧
    (computeTimingV1 1000 1150 1100).slotsRemaining = 50 ∧
    (computeTimingV1 1000 1150 1100).timeRemainingSecs = 18 ∧
    (computeTimingV1 1000 1150 1100).isIntermission = false := by
  refine ⟨fun e c => ⟨rfl, rfl⟩, fun e c => ?_, fun e c => ?_, by decide, ?_, by decide, ?_, by decide⟩
  · simp only [timeRemainingSecsV3Json, timeRemainingSecsV3, slotsRemainingV3]
    congr 1
    push_cast
    rw [show (2.5 : ℚ) = 5 / 2 by norm_num]
    ring
  · simp only [computeTimingV1, ge_iff_le]
  · simp only [timeRemainingSecsV3Json, timeRemainingSecsV3, slotsRemainingV3, jsRound]
    norm_num
  · simp only [computeTimingV1]
    norm_num

/-- C6: the duplicate decoders disagree — on the same well-formed 560-byte
round buffer the second variant (deployed at offset `8 + i*8`) and third
variant (deployed at offset `16 + i*8`) return different deployed arrays,
and the timing computations use different constants:
`floor(50 * 0.37) = 18` versus `round(50 / 2.5) = 20`. -/
theorem c6_duplicate_decoders_disagree :
    deployedV2 (List.replicate 8 0 ++ 1 :: List.replicate 551 0) ≠
      deployedV3 (List.replicate 8 0 ++ 1 :: List.replicate 551 0) ∧
    (computeTimingV1 0 50 0).timeRemainingSecs = 18 ∧
    timeRemainingSecsV3Json 50 0 = 20 ∧
    (computeTimingV1 0 50 0).timeRemainingSecs ≠ timeRemainingSecsV3Json 50 0 := by
  have h1 : (computeTimingV1 0 50 0).timeRemainingSecs = 18 := by
    simp only [computeTimingV1]
    norm_num
  have h2 : timeRemainingSecsV3Json 50 0 = 20 := by
    simp only [timeRemainingSecsV3Json, timeRemainingSecsV3, slotsRemainingV3, jsRound]
    norm_num
  refine ⟨by decide, h1, h2, ?_⟩
  rw [h1, h2]
  decide

lemma length_mkSquares (d c : List Nat) (t : Nat) :
    (mkSquares d c t).length = d.length := by
  simp [mkSquares]

lemma mkSquares_getD (d c : List Nat) (t j : Nat) (h : j < d.length) :
    (mkSquares d c t).getD j default =
      { squareNum := j + 1
        index := j
        deployedLamports := d.getD j 0
        minerCount := c.getD j 0
        isWinning := false
        percentageOfTotal :=
          if 0 < t then (d.getD j 0 : ℚ) / (t : ℚ) * 100 else 4 } := by
  simp [mkSquares, List.getElem?_eq_getElem h]

lemma mkSquares_getD_isWinning (d c : List Nat) (t j : Nat) :
    ((mkSquares d c t).getD j default).isWinning = false := by
  by_cases h : j < d.length
  · rw [mkSquares_getD d c t j h]
  · have hlen : d.length ≤ j := Nat.le_of_not_lt h
    rw [List.getD_eq_getElem?_getD, List.getElem?_eq_none (by simpa [mkSquares] using hlen)]
    rfl

/-- C5 counterexample: when `total_deployed = 0` the percentage field is
`4.0`, not the claimed `0`. -/
theorem c5_zero_total_counterexample :
    ((mkSquares (List.replicate 25 3) (List.replicate 25 1) 0).getD 0 default).percentageOfTotal = 4 ∧
    (4 : ℚ) ≠ 0 := by
  constructor
  · rw [mkSquares_getD _ _ _ 0 (by decide)]
    norm_num
  · decide

/-- C5 amended: for every square summary,
`percentage_of_total = deployed / total * 100` when `total_deployed > 0`,
and exactly `4.0` (a uniform 1-in-25 placeholder — never NaN or
infinity, but not `0`) when `total_deployed = 0`. -/
theorem c5_percentage_fallback (deployed count : List Nat) (total j : Nat)
    (h : j < deployed.length) :
    (0 < total →
      ((mkSquares deployed count total).getD j default).percentageOfTotal =
        (deployed.getD j 0 : ℚ) / (total : ℚ) * 100) ∧
    (total = 0 →
      ((mkSquares deployed count total).getD j default).percentageOfTotal = 4) := by
  rw [mkSquares_getD deployed count total j h]
  constructor
  · intro ht
    simp [ht]
  · intro ht
    simp [ht]

/-- Witness for C5 amended at concrete inputs with `total_deployed = 0`. -/
theorem c5_percentage_fallback_witness :
    (0 < 0 →
      ((mkSquares (List.replicate 25 3) (List.replicate 25 1) 0).getD 2 default).percentageOfTotal =
        ((List.replicate 25 3).getD 2 0 : ℚ) / ((0 : Nat) : ℚ) * 100) ∧
    ((0 : Nat) = 0 →
      ((mkSquares (List.replicate 25 3) (List.replicate 25 1) 0).getD 2 default).percentageOfTotal = 4) :=
  c5_percentage_fallback (List.replicate 25 3) (List.replicate 25 1) 0 2 (by decide)

lemma length_markWinningSquare (s : List SquareSummary) (sh : List Nat) (b : Bool) :
    (markWinningSquare s sh b).length = s.length := by
  simp only [markWinningSquare]
  split
  · split
    · simp
    · rfl
  · rfl

lemma markWinningSquare_of_neg (squares : List SquareSummary) (sh : List Nat) (b : Bool)
    (h : (!(sh.all (fun x => x == 0)) && b) = false) :
    markWinningSquare squares sh b = squares := by
  simp [markWinningSquare, h]

lemma markWinningSquare_getD_pos (squares : List SquareSummary) (sh : List Nat) (b : Bool)
    (h : (!(sh.all (fun x => x == 0)) && b) = true) (j : Nat) (hj : j < squares.length) :
    (markWinningSquare squares sh b).getD j default =
      (if j = slotHashRng sh % 25 then { squares.getD j default with isWinning := true }
       else squares.getD j default) := by
  have hw : slotHashRng sh % 25 < 25 := Nat.mod_lt _ (by norm_num)
  simp only [markWinningSquare, h, if_true, hw]
  simp [List.getElem?_eq_getElem hj]

lemma liveSquares_isWinning_false (deployed count slotHash : List Nat) (total : Nat)
    (inter : Bool) (hc : (!(slotHash.all (fun b => b == 0)) && inter) = false) (j : Nat) :
    ((liveSquares deployed count total slotHash inter).getD j default).isWinning = false := by
  rw [liveSquares, markWinningSquare_of_neg _ _ _ hc]
  exact mkSquares_getD_isWinning _ _ _ _

/-- C10: a square can be marked winning only when the round is in
intermission and the randomness is not all-zero; while the round is in
progress every summary has `is_winning = false`, whatever the randomness
holds. -/
theorem c10_winner_requires_intermission (deployed count slotHash : List Nat)
    (total : Nat) (inter : Bool) :
    ((∃ j, ((liveSquares deployed count total slotHash inter).getD j default).isWinning = true) →
      inter = true ∧ slotHash.all (fun b => b == 0) = false) ∧
    (inter = false →
      ∀ j, ((liveSquares deployed count total slotHash inter).getD j default).isWinning = false) := by
  cases hc : (!(slotHash.all (fun b => b == 0)) && inter) with
  | false =>
    constructor
    · rintro ⟨j, hjw⟩
      rw [liveSquares_isWinning_false deployed count slotHash total inter hc j] at hjw
      cases hjw
    · intro _ j
      exact liveSquares_isWinning_false deployed count slotHash total inter hc j
  | true =>
    obtain ⟨hnz, hb⟩ : (!(slotHash.all (fun b => b == 0))) = true ∧ inter = true := by
      simpa using hc
    have hz : slotHash.all (fun b => b == 0) = false := by
      revert hnz
      cases slotHash.all (fun b => b == 0) <;> simp
    constructor
    · intro _
      exact ⟨hb, hz⟩
    · intro hfalse
      rw [hfalse] at hb
      cases hb
    
/-- Witness for C10: with a non-sentinel randomness (32 bytes of 7) and
the round still in progress, square 1 is not marked winning. -/
theorem c10_winner_requires_intermission_witness :
    ((liveSquares (List.replicate 25 0) (List.replicate 25 0) 0
        (List.replicate 32 7) false).getD 0 default).isWinning = false :=
  (c10_winner_requires_intermission (List.replicate 25 0) (List.replicate 25 0)
    (List.replicate 32 7) 0 false).2 rfl 0

/-- C8: the first variant builds one summary per index 1..25 from
`round.deployed[i-1]` and `round.count[i-1]`, and `is_winning = true`
holds exactly on the summary whose square number equals the winner the
inline check supplies (`rng % 25` as 0-based index, i.e. square number
`rng % 25 + 1`), with all 25 summaries unmarked when that winner is
`None`. -/
theorem c8_aggregator_marking (deployed count slotHash : List Nat) (total : Nat)
    (inter : Bool) (hd : deployed.length = 25) (i : Nat) (h1 : 1 ≤ i) (h2 : i ≤ 25) :
    (liveSquares deployed count total slotHash inter).length = 25 ∧
    ((liveSquares deployed count total slotHash inter).getD (i - 1) default).squareNum = i ∧
    ((liveSquares deployed count total slotHash inter).getD (i - 1) default).deployedLamports =
      deployed.getD (i - 1) 0 ∧
    ((liveSquares deployed count total slotHash inter).getD (i - 1) default).minerCount =
      count.getD (i - 1) 0 ∧
    (((liveSquares deployed count total slotHash inter).getD (i - 1) default).isWinning = true ↔
      Option.map (fun n => n + 1) (inlineWinnerIdx slotHash inter) = some i) := by
  have hj : i - 1 < deployed.length := by omega
  have hmk := mkSquares_getD deployed count total (i - 1) hj
  cases hc : (!(slotHash.all (fun b => b == 0)) && inter) with
  | false =>
    rw [liveSquares, markWinningSquare_of_neg _ _ _ hc, hmk]
    refine ⟨by rw [length_mkSquares, hd], by show i - 1 + 1 = i; omega, rfl, rfl, ?_⟩
    simp [inlineWinnerIdx, hc]
  | true =>
    have hjq : i - 1 < (mkSquares deployed count total).length := by
      rw [length_mkSquares]
      exact hj
    rw [liveSquares, markWinningSquare_getD_pos _ _ _ hc _ hjq, hmk]
    have hmap : Option.map (fun n => n + 1) (inlineWinnerIdx slotHash inter) =
        some (slotHashRng slotHash % 25 + 1) := by
      simp [inlineWinnerIdx, hc]
    refine ⟨by rw [length_markWinningSquare, length_mkSquares, hd], ?_, ?_, ?_, ?_⟩
    · split
      · show i - 1 + 1 = i
        omega
      · show i - 1 + 1 = i
        omega
    · split <;> rfl
    · split <;> rfl
    · rw [hmap]
      by_cases hiw : i - 1 = slotHashRng slotHash % 25
      · rw [if_pos hiw]
        constructor
        · intro _
          exact congrArg some (by omega)
        · intro _
          rfl
      · rw [if_neg hiw]
        constructor
        · intro hfalse
          simp at hfalse
        · intro hsome
          have hws : slotHashRng slotHash % 25 + 1 = i := Option.some.inj hsome
          exact absurd (by omega : i - 1 = slotHashRng slotHash % 25) hiw

/-- Witness for C8: round with every square holding 2 lamports from 2
miners, randomness `(r0 = 5, 0, 0, 0)`, intermission reached, at square
`i = 6` (the winner). -/
theorem c8_aggregator_marking_witness :
    (liveSquares (List.replicate 25 2) (List.replicate 25 2) 50
        (5 :: List.replicate 31 0) true).length = 25 ∧
    ((liveSquares (List.replicate 25 2) (List.replicate 25 2) 50
        (5 :: List.replicate 31 0) true).getD (6 - 1) default).squareNum = 6 ∧
    ((liveSquares (List.replicate 25 2) (List.replicate 25 2) 50
        (5 :: List.replicate 31 0) true).getD (6 - 1) default).deployedLamports =
      (List.replicate 25 2).getD (6 - 1) 0 ∧
    ((liveSquares (List.replicate 25 2) (List.replicate 25 2) 50
        (5 :: List.replicate 31 0) true).getD (6 - 1) default).minerCount =
      (List.replicate 25 2).getD (6 - 1) 0 ∧
    (((liveSquares (List.replicate 25 2) (List.replicate 25 2) 50
        (5 :: List.replicate 31 0) true).getD (6 - 1) default).isWinning = true ↔
      Option.map (fun n => n + 1)
        (inlineWinnerIdx (5 :: List.replicate 31 0) true) = some 6) :=
  c8_aggregator_marking (List.replicate 25 2) (List.replicate 25 2)
    (5 :: List.replicate 31 0) 50 true (by decide) 6 (by decide) (by decide)

/-- C2 counterexample: on the all-0xFF sentinel `calculateWinningSquare`
returns `None`, but the first variant's inline winner check (which only
tests for all-zero) supplies winner index 0 and marks square 1 as
winning once the round is in intermission. -/
theorem c2_inline_allff_counterexample :
    calculateWinningSquare (List.replicate 32 255) = none ∧
    inlineWinnerIdx (List.replicate 32 255) true = some 0 ∧
    ((liveSquares (List.replicate 25 0) (List.replicate 25 0) 0
        (List.replicate 32 255) true).getD 0 default).isWinning = true := by
  refine ⟨by decide, by decide, by decide⟩

/-- C2 amended: `calculateWinningSquare` returns `None` exactly on the
all-zero and all-0xFF sentinels; the first variant's inline winner
computation, however, treats only all-zero (or a round still in
progress) as undetermined and computes a winner for all-0xFF input. -/
theorem c2_sentinel_iff (slotHash : List Nat) (h : slotHash.length = 32) :
    ((calculateWinningSquare slotHash = none) ↔
      (slotHash.all (fun b => b == 0) = true ∨ slotHash.all (fun b => b == 255) = true)) ∧
    (∀ inter : Bool, (inlineWinnerIdx slotHash inter = none) ↔
      (slotHash.all (fun b => b == 0) = true ∨ inter = false)) := by
  have _hlen := h
  constructor
  · unfold calculateWinningSquare
    cases hz : slotHash.all (fun b => b == 0) <;>
      cases hm : slotHash.all (fun b => b == 255) <;> simp [hz, hm]
  · intro inter
    unfold inlineWinnerIdx
    cases hz : slotHash.all (fun b => b == 0) <;> cases inter <;> simp [hz]

/-- Witness for C2 amended at the all-0xFF sentinel. -/
theorem c2_sentinel_iff_witness :
    ((calculateWinningSquare (List.replicate 32 255) = none) ↔
      ((List.replicate 32 255).all (fun b => b == 0) = true ∨
       (List.replicate 32 255).all (fun b => b == 255) = true)) ∧
    (∀ inter : Bool, (inlineWinnerIdx (List.replicate 32 255) inter = none) ↔
      ((List.replicate 32 255).all (fun b => b == 0) = true ∨ inter = false)) :=
  c2_sentinel_iff (List.replicate 32 255) (by decide)

lemma exceptBind_ok {ε α β : Type} (a : α) (f : α → Except ε β) :
    (Except.ok a >>= f) = f a := rfl

lemma exceptBind_error {ε α β : Type} (e : ε) (f : α → Except ε β) :
    ((Except.error e : Except ε α) >>= f) = Except.error e := rfl

lemma readBigUInt64LE_ok_length {data : List Nat} {off v : Nat}
    (hv : readBigUInt64LE data off = Except.ok v) : off + 8 ≤ data.length := by
  by_cases hc : off + 8 ≤ data.length
  · exact hc
  · simp [readBigUInt64LE, hc] at hv

lemma readBigUInt64LE_error_eq {data : List Nat} {off : Nat} {e : DecodeError}
    (he : readBigUInt64LE data off = Except.error e) :
    e = DecodeError.rangeRead off := by
  by_cases hc : off + 8 ≤ data.length <;> simp [readBigUInt64LE, hc] at he
  exact he.symm

lemma publicKeyFromBytes_error_eq {bytes : List Nat} {e : DecodeError}
    (he : publicKeyFromBytes bytes = Except.error e) : e = DecodeError.invalidKey := by
  by_cases hc : bytes.length = 32 <;> simp [publicKeyFromBytes, hc] at he
  exact he.symm

lemma mapM_readBigUInt64LE_error_eq {data : List Nat} {f : Nat → Nat} {l : List Nat}
    {e : DecodeError}
    (he : l.mapM (fun i => readBigUInt64LE data (f i)) = Except.error e) :
    ∃ off, e = DecodeError.rangeRead off := by
  induction l generalizing e with
  | nil =>
    rw [List.mapM_nil] at he
    exact Except.noConfusion he
  | cons x xs ih =>
    rw [List.mapM_cons] at he
    cases hx : readBigUInt64LE data (f x) with
    | error e2 =>
      rw [hx, exceptBind_error] at he
      refine ⟨f x, ?_⟩
      rw [← Except.error.inj he]
      exact readBigUInt64LE_error_eq hx
    | ok y =>
      rw [hx, exceptBind_ok] at he
      cases hxs : xs.mapM (fun i => readBigUInt64LE data (f i)) with
      | error e3 =>
        rw [hxs, exceptBind_error] at he
        obtain ⟨off, hoff⟩ := ih hxs
        refine ⟨off, ?_⟩
        rw [← Except.error.inj he]
        exact hoff
      | ok ys =>
        rw [hxs, exceptBind_ok] at he
        exact Except.noConfusion he

lemma parseRound_ok_length {data : List Nat} {r : Round}
    (h : parseRound data = Except.ok r) : 552 ≤ data.length := by
  simp only [parseRound] at h
  cases h0 : readBigUInt64LE data 0 with
  | error e => rw [h0, exceptBind_error] at h; exact Except.noConfusion h
  | ok v0 =>
  rw [h0, exceptBind_ok] at h
  cases h1 : (List.range 25).mapM (fun i => readBigUInt64LE data (8 + i * 8)) with
  | error e => rw [h1, exceptBind_error] at h; exact Except.noConfusion h
  | ok dep =>
  rw [h1, exceptBind_ok] at h
  cases h2 : (List.range 25).mapM (fun i => readBigUInt64LE data (240 + i * 8)) with
  | error e => rw [h2, exceptBind_error] at h; exact Except.noConfusion h
  | ok cnt =>
  rw [h2, exceptBind_ok] at h
  cases h3 : readBigUInt64LE data 448 with
  | error e => rw [h3, exceptBind_error] at h; exact Except.noConfusion h
  | ok v3 =>
  rw [h3, exceptBind_ok] at h
  cases h4 : publicKeyFromBytes (bufSlice data 488 520) with
  | error e => rw [h4, exceptBind_error] at h; exact Except.noConfusion h
  | ok key =>
  rw [h4, exceptBind_ok] at h
  cases h5 : readBigUInt64LE data 520 with
  | error e => rw [h5, exceptBind_error] at h; exact Except.noConfusion h
  | ok v5 =>
  rw [h5, exceptBind_ok] at h
  cases h6 : readBigUInt64LE data 528 with
  | error e => rw [h6, exceptBind_error] at h; exact Except.noConfusion h
  | ok v6 =>
  rw [h6, exceptBind_ok] at h
  cases h7 : readBigUInt64LE data 536 with
  | error e => rw [h7, exceptBind_error] at h; exact Except.noConfusion h
  | ok v7 =>
  rw [h7, exceptBind_ok] at h
  cases h8 : readBigUInt64LE data 544 with
  | error e => rw [h8, exceptBind_error] at h; exact Except.noConfusion h
  | ok v8 =>
  have := readBigUInt64LE_ok_length h8
  omega

lemma parseBoard_ok_length {data : List Nat} {b : Board}
    (h : parseBoard data = Except.ok b) : 32 ≤ data.length := by
  simp only [parseBoard] at h
  cases h0 : readBigUInt64LE data 0 with
  | error e => rw [h0, exceptBind_error] at h; exact Except.noConfusion h
  | ok v0 =>
  rw [h0, exceptBind_ok] at h
  cases h1 : readBigUInt64LE data 8 with
  | error e => rw [h1, exceptBind_error] at h; exact Except.noConfusion h
  | ok v1 =>
  rw [h1, exceptBind_ok] at h
  cases h2 : readBigUInt64LE data 16 with
  | error e => rw [h2, exceptBind_error] at h; exact Except.noConfusion h
  | ok v2 =>
  rw [h2, exceptBind_ok] at h
  cases h3 : readBigUInt64LE data 24 with
  | error e => rw [h3, exceptBind_error] at h; exact Except.noConfusion h
  | ok v3 =>
  have := readBigUInt64LE_ok_length h3
  omega

lemma parseBoard_not_tooShort (data : List Nat) :
    parseBoard data ≠ Except.error DecodeError.tooShort := by
  intro hc
  simp only [parseBoard] at hc
  cases h0 : readBigUInt64LE data 0 with
  | error e =>
    rw [h0, exceptBind_error] at hc
    have hinj := Except.error.inj hc
    rw [readBigUInt64LE_error_eq h0] at hinj
    exact DecodeError.noConfusion hinj
  | ok v0 =>
  rw [h0, exceptBind_ok] at hc
  cases h1 : readBigUInt64LE data 8 with
  | error e =>
    rw [h1, exceptBind_error] at hc
    have hinj := Except.error.inj hc
    rw [readBigUInt64LE_error_eq h1] at hinj
    exact DecodeError.noConfusion hinj
  | ok v1 =>
  rw [h1, exceptBind_ok] at hc
  cases h2 : readBigUInt64LE data 16 with
  | error e =>
    rw [h2, exceptBind_error] at hc
    have hinj := Except.error.inj hc
    rw [readBigUInt64LE_error_eq h2] at hinj
    exact DecodeError.noConfusion hinj
  | ok v2 =>
  rw [h2, exceptBind_ok] at hc
  cases h3 : readBigUInt64LE data 24 with
  | error e =>
    rw [h3, exceptBind_error] at hc
    have hinj := Except.error.inj hc
    rw [readBigUInt64LE_error_eq h3] at hinj
    exact DecodeError.noConfusion hinj
  | ok v3 =>
  rw [h3, exceptBind_ok] at hc
  exact Except.noConfusion hc

lemma parseRound_not_tooShort (data : List Nat) :
    parseRound data ≠ Except.error DecodeError.tooShort := by
  intro hc
  simp only [parseRound] at hc
  cases h0 : readBigUInt64LE data 0 with
  | error e =>
    rw [h0, exceptBind_error] at hc
    have hinj := Except.error.inj hc
    rw [readBigUInt64LE_error_eq h0] at hinj
    exact DecodeError.noConfusion hinj
  | ok v0 =>
  rw [h0, exceptBind_ok] at hc
  cases h1 : (List.range 25).mapM (fun i => readBigUInt64LE data (8 + i * 8)) with
  | error e =>
    rw [h1, exceptBind_error] at hc
    have hinj := Except.error.inj hc
    obtain ⟨off, hoff⟩ := mapM_readBigUInt64LE_error_eq h1
    rw [hoff] at hinj
    exact DecodeError.noConfusion hinj
  | ok dep =>
  rw [h1, exceptBind_ok] at hc
  cases h2 : (List.range 25).mapM (fun i => readBigUInt64LE data (240 + i * 8)) with
  | error e =>
    rw [h2, exceptBind_error] at hc
    have hinj := Except.error.inj hc
    obtain ⟨off, hoff⟩ := mapM_readBigUInt64LE_error_eq h2
    rw [hoff] at hinj
    exact DecodeError.noConfusion hinj
  | ok cnt =>
  rw [h2, exceptBind_ok] at hc
  cases h3 : readBigUInt64LE data 448 with
  | error e =>
    rw [h3, exceptBind_error] at hc
    have hinj := Except.error.inj hc
    rw [readBigUInt64LE_error_eq h3] at hinj
    exact DecodeError.noConfusion hinj
  | ok v3 =>
  rw [h3, exceptBind_ok] at hc
  cases h4 : publicKeyFromBytes (bufSlice data 488 520) with
  | error e =>
    rw [h4, exceptBind_error] at hc
    have hinj := Except.error.inj hc
    rw [publicKeyFromBytes_error_eq h4] at hinj
    exact DecodeError.noConfusion hinj
  | ok key =>
  rw [h4, exceptBind_ok] at hc
  cases h5 : readBigUInt64LE data 520 with
  | error e =>
    rw [h5, exceptBind_error] at hc
    have hinj := Except.error.inj hc
    rw [readBigUInt64LE_error_eq h5] at hinj
    exact DecodeError.noConfusion hinj
  | ok v5 =>
  rw [h5, exceptBind_ok] at hc
  cases h6 : readBigUInt64LE data 528 with
  | error e =>
    rw [h6, exceptBind_error] at hc
    have hinj := Except.error.inj hc
    rw [readBigUInt64LE_error_eq h6] at hinj
    exact DecodeError.noConfusion hinj
  | ok v6 =>
  rw [h6, exceptBind_ok] at hc
  cases h7 : readBigUInt64LE data 536 with
  | error e =>
    rw [h7, exceptBind_error] at hc
    have hinj := Except.error.inj hc
    rw [readBigUInt64LE_error_eq h7] at hinj
    exact DecodeError.noConfusion hinj
  | ok v7 =>
  rw [h7, exceptBind_ok] at hc
  cases h8 : readBigUInt64LE data 544 with
  | error e =>
    rw [h8, exceptBind_error] at hc
    have hinj := Except.error.inj hc
    rw [readBigUInt64LE_error_eq h8] at hinj
    exact DecodeError.noConfusion hinj
  | ok v8 =>
  rw [h8, exceptBind_ok] at hc
  exact Except.noConfusion hc

set_option maxRecDepth 8192

/-- C3 counterexample: on a 261-byte Round payload `parseRound` fails
with an out-of-range read at offset 256 (the third `count` word), after
having already read `id` and all 25 `deployed` words — not with a typed
`DecodeError.tooShort` from an up-front length check. -/
theorem c3_tooshort_counterexample :
    parseRound (List.replicate 261 0) = Except.error (DecodeError.rangeRead 256) ∧
    parseRound (List.replicate 261 0) ≠ Except.error DecodeError.tooShort := by
  have h1 : parseRound (List.replicate 261 0) =
      Except.error (DecodeError.rangeRead 256) := by rfl
  refine ⟨h1, ?_⟩
  intro hc
  rw [h1] at hc
  exact DecodeError.noConfusion (Except.error.inj hc)

/-- C3 amended: neither `parseRound` nor `parseBoard` validates the
buffer length up front or has a `TooShort` error; on every too-short
buffer they abort with an untyped out-of-range read (or invalid-key)
failure partway through decoding, and never return a partial struct. -/
theorem c3_short_buffer_fails (data bdata : List Nat)
    (h : data.length < 552) (hb : bdata.length < 32) :
    (∀ r, parseRound data ≠ Except.ok r) ∧
    parseRound data ≠ Except.error DecodeError.tooShort ∧
    (∀ b, parseBoard bdata ≠ Except.ok b) ∧
    parseBoard bdata ≠ Except.error DecodeError.tooShort := by
  refine ⟨?_, parseRound_not_tooShort data, ?_, parseBoard_not_tooShort bdata⟩
  · intro r hr
    have := parseRound_ok_length hr
    omega
  · intro b hbk
    have := parseBoard_ok_length hbk
    omega

/-- Witness for C3 amended: the 261-byte Round payload and a 31-byte
Board payload. -/
theorem c3_short_buffer_fails_witness :
    (∀ r, parseRound (List.replicate 261 0) ≠ Except.ok r) ∧
    parseRound (List.replicate 261 0) ≠ Except.error DecodeError.tooShort ∧
    (∀ b, parseBoard (List.replicate 31 0) ≠ Except.ok b) ∧
    parseBoard (List.replicate 31 0) ≠ Except.error DecodeError.tooShort :=
  c3_short_buffer_fails (List.replicate 261 0) (List.replicate 31 0)
    (by simp) (by simp)
